import Mathlib

/-!
Verification development for the relinker-resolution module of the
`yt_dlp/extractor/rai.py` source file (class `RaiBaseIE`).

The Python code is shallowly embedded: each relinker probe response is the
record of XML fields the code reads, external capabilities (XML download,
HLS/HDS manifest expansion, HEAD probes) are function parameters, and Python
runtime exceptions (`TypeError` on `None > 0`, `KeyError` on a missing
quality-table key) as well as the deliberately raised geo-restriction error
are modelled by an `Except` error type.

Python numeric values are modelled as integers: every number this module
itself produces is an integer (parsed bitrates, clock-string durations, the
quality table), and `math.floor(x / 100)` on integers is floor division,
here `Int.fdiv`.
-/

namespace Rai

/-! ## Generic string helpers used by the embedding -/

/-- Checks whether the list `needle` occurs contiguously inside `hay`
    (the Python `in` operator on strings). -/
def listInfix (needle : List Char) : List Char → Bool
  | [] => needle.isEmpty
  | c :: rest => needle.isPrefixOf (c :: rest) || listInfix needle rest

/-- Python `needle in hay` for strings. -/
def strContains (hay needle : String) : Bool :=
  listInfix needle.toList hay.toList

/-- Drops the literal prefix `pre` from `l`, or fails. -/
def dropPrefixCh : List Char → List Char → Option (List Char)
  | [], l => some l
  | _ :: _, [] => none
  | p :: ps, c :: cs => if p = c then dropPrefixCh ps cs else none

/-- Python `str.startswith` (also the anchored `re.match` of a literal). -/
def strStartsWith (s pre : String) : Bool :=
  pre.toList.isPrefixOf s.toList

/-- Python `c in s` for a single character. -/
def charIn (s : String) (c : Char) : Bool :=
  s.toList.any (fun d => d = c)

/-- Splitting a character list on every occurrence of a separator character. -/
def splitOnCharL (sep : Char) : List Char → List (List Char)
  | [] => [[]]
  | c :: rest =>
    if c = sep then [] :: splitOnCharL sep rest
    else
      match splitOnCharL sep rest with
      | [] => [[c]]
      | h :: t => (c :: h) :: t

/-- Python `s.split(sep)` for a one-character separator. -/
def splitOnChar (s : String) (sep : Char) : List String :=
  (splitOnCharL sep s.toList).map String.mk

/-- Parse of a nonempty all-digit string (the numeric core of Python `int`). -/
def strToNat? (s : String) : Option Nat :=
  if !s.toList.isEmpty && s.toList.all Char.isDigit then
    some (s.toList.foldl (fun a c => a * 10 + (c.toNat - ('0').toNat)) 0)
  else none

/-- Integer parse with an optional leading minus sign. -/
def strToInt? (s : String) : Option Int :=
  match s.toList with
  | '-' :: rest => (strToNat? (String.mk rest)).map (fun n => -((n : Int)))
  | _ => (strToNat? s).map (fun n => ((n : Int)))

/-- Splits at the first slash: returns the (possibly empty) segment before it
    and the remainder after it; fails when no slash is present. -/
def splitFirstSlash (l : List Char) : Option (List Char × List Char) :=
  let pre := l.takeWhile (fun c => c ≠ '/')
  match l.dropWhile (fun c => c ≠ '/') with
  | '/' :: r => some (pre, r)
  | _ => none

/-! ## Data model -/

/-- One candidate playable stream, mirroring the keys the Python code puts
    into (or reads from) a format dict.  A field holding `none` models the
    key being absent or set to Python `None`. -/
structure Format where
  url : String
  format_id : Option String
  vcodec : Option String
  acodec : Option String
  tbr : Option Int
  width : Option Int
  height : Option Int
  fps : Option Int
  protocol : Option String
  ext : Option String
deriving DecidableEq

/-- A format dict holding only a `url` key. -/
def baseFormat (u : String) : Format :=
  ⟨u, none, none, none, none, none, none, none, none, none⟩

/-- The three delivery-platform profiles probed by `_extract_relinker_info`. -/
inductive Platform where
  | mon
  | flash
  | native
deriving DecidableEq

/-- The fields of one relinker XML response that the code reads, each as the
    value `xpath_text(..., default=None)` would produce (`none` = element
    absent; an element present with empty text is not distinguished, no claim
    depends on it).  `url_content` is the text of `./url[@type='content']`,
    `none` when `find_xpath_attr` finds no such element. -/
structure RelinkerXml where
  license_url : Option String
  geoprotection : Option String
  is_live : Option String
  duration : Option String
  url_content : Option String
  bitrate : Option String
deriving DecidableEq

/-- Mutable loop state of `_extract_relinker_info`: the growing format list,
    the three latched fields, and whether DRM was reported. -/
structure LoopState where
  formats : List Format
  geoprotection : Option Bool
  is_live : Option Bool
  duration : Option Int
  drm : Bool
deriving DecidableEq

/-- Python-level failures of the embedded code. -/
inductive PyErr where
  | typeError
  | keyError (key : String)
  | geoRestricted (countries : List String) (metadata_available : Bool)
deriving DecidableEq

/-- The value returned by `_extract_relinker_info` after `filter_dict`:
    an `Option` field equal to `none` models the key being dropped from the
    returned dict (Python `None` values are filtered out). -/
structure Outcome where
  is_live : Option Bool
  duration : Option Int
  formats : List Format
deriving DecidableEq

deriving instance DecidableEq for Except

/-! ## Models of framework utilities (`yt_dlp/utils`, not under `src/`) -/

/-- Modelled from the spec: the framework utility `int_or_none`, which parses
    an optional string as an integer and yields `none` on absence or parse
    failure (the spec requires absent or malformed numeric fields to be
    treated as unknown rather than as errors). -/
def int_or_none (v : Option String) : Option Int :=
  v.bind strToInt?

/-- Modelled from the spec: the framework utility `parse_duration` restricted
    to the numeric `[[HH:]MM:]SS` clock forms produced by the relinker XML;
    yields `none` on absence or on anything it does not recognise.  The
    free-text forms of the full utility are not used by this module. -/
def parse_duration (s : Option String) : Option Int :=
  match s with
  | none => none
  | some str =>
    match (splitOnChar str (':')).mapM strToNat? with
    | some [ss] => some ((ss : Int))
    | some [mm, ss] => some (((mm * 60 + ss : ℕ) : Int))
    | some [hh, mm, ss] => some (((hh * 3600 + mm * 60 + ss : ℕ) : Int))
    | _ => none

/-- Extension list used by the fallback branch of `determine_ext` (a
    representative subset of the framework's table; all media URLs in this
    module are decided by the alphanumeric branch). -/
def KNOWN_EXTENSIONS : List String :=
  [("mp4"), ("m4a"), ("m4v"), ("aac"), ("flv"), ("f4v"), ("f4m"), ("f4f"),
   ("webm"), ("ogg"), ("mkv"), ("avi"), ("mov"), ("wmv"), ("mp3"), ("flac"),
   ("wav"), ("m3u8"), ("mpd"), ("smil")]

/-- Modelled from the spec: the framework utility `determine_ext`: the
    extension is the alphanumeric run after the last dot of the part before
    the query string, with a known-extension fallback for trailing slashes
    and a caller-supplied default otherwise. -/
def determine_ext (url : Option String) (default_ext : String) : String :=
  match url with
  | none => default_ext
  | some u =>
    if ¬ charIn u ('.') then default_ext
    else
      let beforeQ := (splitOnChar u ('?')).headD u
      let guess := (splitOnChar beforeQ ('.')).getLastD beforeQ
      if !guess.toList.isEmpty && guess.toList.all (fun c => c.isAlpha || c.isDigit) then
        guess
      else
        let g2 := String.mk ((guess.toList.reverse.dropWhile (fun c => c = '/')).reverse)
        if KNOWN_EXTENSIONS.contains g2 then g2 else default_ext

/-- Recognises the scheme-or-network prefix `([a-zA-Z][a-zA-Z0-9+\-.]*:)?//`
    that makes a path absolute for `urljoin`. -/
def startsWithScheme (p : String) : Bool :=
  if strStartsWith p ("//") then true
  else
    match p.toList with
    | [] => false
    | c :: rest =>
      c.isAlpha &&
        (match rest.dropWhile (fun d => d.isAlpha || d.isDigit || d = '+' || d = '-' || d = '.') with
         | ':' :: '/' :: '/' :: _ => true
         | _ => false)

/-- Scheme-and-host part of a URL (up to the first slash after `://`). -/
def hostPart (base : String) : String :=
  match base.splitOn ("://") with
  | [s, r] => s ++ ("://") ++ ((r.splitOn ("/")).headD r)
  | _ => base

/-- Base URL truncated after its last slash. -/
def dirPart (base : String) : String :=
  String.mk ((base.toList.reverse.dropWhile (fun c => c ≠ '/')).reverse)

/-- Modelled from the spec: relative-reference resolution inside `urljoin`,
    simplified to the absolute-path and relative-path cases (no claim
    exercises this branch; the claimed subtitle inputs are absolute URLs). -/
def resolveRelative (base p : String) : String :=
  if strStartsWith p ("/") then hostPart base ++ p
  else (if dirPart base = ("") then base ++ ("/") else dirPart base) ++ p

/-- Modelled from the spec: the framework utility `urljoin` - `none` for an
    empty or absent path, the path itself when it already carries a scheme or
    network prefix, `none` when the base is not a network URL, and relative
    resolution otherwise. -/
def urljoin (base : String) (path : Option String) : Option String :=
  match path with
  | none => none
  | some p =>
    if p = ("") then none
    else if startsWithScheme p then some p
    else if ¬ (strStartsWith base ("http://") || strStartsWith base ("https://") || strStartsWith base ("//")) then none
    else some (resolveRelative base p)

/-- Modelled from the spec: the framework utility `update_url_query`,
    restricted to appending an already-encoded query (`hdcore`/`plugin`
    vendor parameters); full re-encoding is not modelled, and no claim
    depends on the HDS manifest URL text. -/
def update_url_query (u : String) (queryStr : String) : String :=
  if charIn u ('?') then u ++ ("&") ++ queryStr else u ++ ("?") ++ queryStr

/-! ## The latch logic of `_extract_relinker_info` (lines 54-66) -/

/-- One latch update for the geo-protection and liveness flags:
    `if not cur: cur = (text == 'Y')`.  `not cur` is true for Python `None`
    and `False`, so anything but an already-latched `True` is overwritten. -/
def latchFlag (cur : Option Bool) (txt : Option String) : Option Bool :=
  if cur = some true then cur else some (decide (txt = some ("Y")))

/-- Python falsiness of the running duration value (`None` or zero). -/
def falsyDur (d : Option Int) : Bool :=
  match d with
  | none => true
  | some q => decide (q = 0)

/-- One latch update for the duration:
    `if not duration: duration = parse_duration(text)`. -/
def latchDur (cur : Option Int) (txt : Option String) : Option Int :=
  if falsyDur cur then parse_duration txt else cur

/-- The per-probe state updates that precede URL classification: DRM
    reporting (license text present and different from the literal two-brace
    placeholder) and the three latches. -/
def applyLatches (x : RelinkerXml) (st : LoopState) : LoopState :=
  { st with
    drm := st.drm || decide (x.license_url.getD ("\x7b\x7d") ≠ ("\x7b\x7d")),
    geoprotection := latchFlag st.geoprotection x.geoprotection,
    is_live := latchFlag st.is_live x.is_live,
    duration := latchDur st.duration x.duration }

/-! ## URL classification (lines 68-107) -/

/-- The placeholder media URL that is skipped without being treated as a
    restriction signal. -/
def sentinel : String := ("/video_no_available.mp4")

/-- The single audio-only format appended for an `.mp3` media URL. -/
def mp3Format (media_url : String) : Format :=
  { baseFormat media_url with
      vcodec := some ("none"),
      acodec := some ("mp3"),
      format_id := some ("http-mp3") }

/-- The single direct-file format of the fallback branch, for a bitrate that
    was successfully parsed to the integer `b`. -/
def directFormat (media_url : String) (b : Int) : Format :=
  { baseFormat media_url with
      tbr := if b > 0 then some b else none,
      format_id := some (("http-") ++ (if b > 0 then toString b else ("http"))) }

/-- Classifies one probe's media URL, returning the formats it contributes
    and whether probing stops (the `break` after `.mp3`).  `m3u8F` and `f4mF`
    are the external manifest-expansion capabilities (already non-fatal:
    they return whatever formats they could extract).  The `TypeError` arm
    models the Python crash `None > 0` when the bitrate element is missing
    or unparsable in the direct-file branch. -/
def classifyUrl (m3u8F f4mF : String → List Format) (p : Platform) (x : RelinkerXml) :
    Except PyErr (List Format × Bool) :=
  match x.url_content with
  | none => .ok ([], false)
  | some media_url =>
    if strContains media_url sentinel then .ok ([], false)
    else
      let ext := determine_ext (some media_url) ("unknown_video")
      if (ext = ("m3u8") ∧ p ≠ .mon) ∨ (ext = ("f4m") ∧ p ≠ .flash) then .ok ([], false)
      else if ext = ("mp3") then .ok ([mp3Format media_url], true)
      else if ext = ("m3u8") ∨ strContains media_url ("format=m3u8") ∨ p = .mon then
        .ok (m3u8F media_url, false)
      else if ext = ("f4m") ∨ p = .flash then
        .ok (f4mF (update_url_query ((media_url.replace ("manifest#live_hds.f4m") ("manifest.f4m")))
                    ("hdcore=3.7.0&plugin=aasp-3.7.0.39.44")), false)
      else
        match int_or_none x.bitrate with
        | none => .error .typeError
        | some b => .ok ([directFormat media_url b], false)

/-- One iteration of the profile loop: latches first, then classification;
    the boolean is the `break` flag. -/
def step (m3u8F f4mF : String → List Format) (p : Platform) (x : RelinkerXml)
    (st : LoopState) : Except PyErr (LoopState × Bool) :=
  match classifyUrl m3u8F f4mF p x with
  | .error e => .error e
  | .ok (delta, brk) =>
    .ok ({ applyLatches x st with formats := (applyLatches x st).formats ++ delta }, brk)

/-- The profile loop of `_extract_relinker_info` over a list of platforms,
    honouring the `break` after an `.mp3` probe. -/
def runLoop (resp : Platform → RelinkerXml) (m3u8F f4mF : String → List Format) :
    List Platform → LoopState → Except PyErr LoopState
  | [], st => .ok st
  | p :: rest, st =>
    match step m3u8F f4mF p (resp p) st with
    | .error e => .error e
    | .ok (st', brk) => if brk then .ok st' else runLoop resp m3u8F f4mF rest st'

/-! ## `_create_http_urls` (lines 121-208) -/

/-- The fixed quality table `_QUALITY` (tbr token to width and height). -/
def _QUALITY : List (String × Int × Int) :=
  [(("250"), 352, 198), (("400"), 512, 288), (("700"), 512, 288),
   (("800"), 700, 394), (("1200"), 736, 414), (("1800"), 1024, 576),
   (("2400"), 1280, 720), (("3200"), 1440, 810), (("3600"), 1440, 810),
   (("5000"), 1920, 1080), (("10000"), 1920, 1080)]

/-- Dictionary lookup in `_QUALITY`; `none` models a Python `KeyError`. -/
def qualityLookup (k : String) : Option (Int × Int) :=
  (_QUALITY.find? (fun e => e.1 = k)).map (fun e => e.2)

/-- The `_MP4_TMPL` template: appends the quality-override marker. -/
def mp4Tmpl (u q : String) : String :=
  u ++ ("&overrideUserAgentRule=mp4-") ++ q

/-- Result of the inner `test_url` helper: Python `False`, `None`, or the
    redirect-resolved URL string. -/
inductive TestUrlResult where
  | fls
  | non
  | redirect (u : String)
deriving DecidableEq

/-- The `test_url` helper over an abstract HEAD capability: `head u` is
    `none` when the request failed (`resp is False`), otherwise the response
    status code and final URL. -/
def test_url (head : String → Option (Nat × String)) (u : String) : TestUrlResult :=
  match head u with
  | none => .fls
  | some (code, finalUrl) =>
    if code = 200 then (if finalUrl = u then .fls else .redirect finalUrl) else .non

/-! ### The `_RELINKER_REG` pattern

`https?://(?P<host>[^/]+?)/(?:i/)?(?P<extra>[^/]+?)/(?P<path>.+?)/(?P<id>\w+)`
`(?:_(?P<quality>[\d\,]+))?(?:\.mp4|/playlist\.m3u8).+?`

matched with `re.match` (prefix anchored).  The matcher below reproduces the
backtracking order of the regex engine: lazy groups try shortest first,
greedy `\w+` tries longest first, optional groups try to match first.  Only
the `quality` capture is observable downstream, so a successful match
returns it (`none` = group unmatched). -/

def isWordChar (c : Char) : Bool := c.isAlpha || c.isDigit || c = '_'

def isQualChar (c : Char) : Bool := c.isDigit || c = ','

/-- Length of the maximal `\w+` run at the head of the list. -/
def wordRun : List Char → Nat
  | [] => 0
  | c :: rest => if isWordChar c then wordRun rest + 1 else 0

/-- Matches `(?:\.mp4|/playlist\.m3u8).+?` at `l`: one of the two literal
    alternatives followed by at least one non-newline character. -/
def matchEnd (l : List Char) : Bool :=
  (match dropPrefixCh (".mp4").toList l with
   | some (c :: _) => c ≠ '\n'
   | _ => false) ||
  (match dropPrefixCh ("/playlist.m3u8").toList l with
   | some (c :: _) => c ≠ '\n'
   | _ => false)

/-- Tries `_(?P<quality>[\d,]+)` then the tail at `l`.  The `[\d,]+` run is
    necessarily maximal: the characters that may follow it (`.` or `/`) are
    not in the class, so shortening never helps. -/
def qualAttempt (l : List Char) : Option String :=
  match l with
  | '_' :: r2 =>
    let qrun := r2.takeWhile isQualChar
    if qrun ≠ [] && matchEnd (r2.drop qrun.length) then some (String.mk qrun) else none
  | _ => none

/-- Tries id lengths `k, k-1, ..., 1` (greedy `\w+` backtracking); for each
    length the optional quality group is tried first, then skipped. -/
def tryIdLens (l : List Char) : Nat → Option (Option String)
  | 0 => none
  | k + 1 =>
    let rest := l.drop (k + 1)
    match qualAttempt rest with
    | some q => some (some q)
    | none => if matchEnd rest then some none else tryIdLens l k

/-- Matches `(?P<id>\w+)(?:_(?P<quality>[\d,]+))?(?:\.mp4|/playlist\.m3u8).+?`. -/
def matchIdFrom (l : List Char) : Option (Option String) :=
  tryIdLens l (wordRun l)

/-- Search for the lazy `(?P<path>.+?)/` split point, scanning left to right;
    at each slash the remainder is tried first, and on failure the slash is
    absorbed into the path.  A newline stops the path (`.` excludes it). -/
def pathSearch : List Char → Option (Option String)
  | [] => none
  | c :: rest =>
    if c = '/' then
      match matchIdFrom rest with
      | some q => some q
      | none => pathSearch rest
    else if c = '\n' then none
    else pathSearch rest

/-- Entry for the path group: its first character is consumed unconditionally
    (`.+?` needs at least one character). -/
def pathEntry : List Char → Option (Option String)
  | [] => none
  | c :: rest => if c = '\n' then none else pathSearch rest

/-- Matches `(?P<extra>[^/]+?)/` (deterministic: up to the first slash,
    nonempty) and continues with the path group. -/
def extraAndOn (l : List Char) : Option (Option String) :=
  match splitFirstSlash l with
  | none => none
  | some (extra, rest) => if extra = [] then none else pathEntry rest

/-- Matches everything after the scheme: host, the optional `i/` segment
    (tried first, with full backtracking into the skipped alternative), and
    the rest of the pattern. -/
def matchFrom (l : List Char) : Option (Option String) :=
  match splitFirstSlash l with
  | none => none
  | some (host, rest) =>
    if host = [] then none
    else
      match rest with
      | 'i' :: '/' :: r2 =>
        match extraAndOn r2 with
        | some q => some q
        | none => extraAndOn rest
      | _ => extraAndOn rest

/-- `re.match(_RELINKER_REG, s)`, reduced to its observable content: `none`
    when the pattern does not match, otherwise the `quality` group (itself
    optional).  After the literal `http`, the optional `s` is deterministic
    because `s` can never begin `://`. -/
def relinkerMatchQuality (s : String) : Option (Option String) :=
  match dropPrefixCh ("http").toList s.toList with
  | none => none
  | some r =>
    match r with
    | 's' :: r2 =>
      (match dropPrefixCh ("://").toList r2 with
       | some r3 => matchFrom r3
       | none => none)
    | _ =>
      (match dropPrefixCh ("://").toList r with
       | some r3 => matchFrom r3
       | none => none)

/-! ### `get_format_info` and the synthesis loop -/

/-- Python truthiness of an optional numeric value. -/
def qTruthy (o : Option Int) : Bool :=
  match o with
  | none => false
  | some b => decide (b ≠ 0)

/-- The effective bitrate `br` of `get_format_info`: the parsed token, except
    that with exactly one surviving format and a falsy parse the format's own
    `tbr` is used. -/
def effBr (fmts : List Format) (q : String) : Option Int :=
  let br1 : Option Int := int_or_none (some q)
  match fmts with
  | [f] => if qTruthy br1 then br1 else f.tbr
  | _ => br1

/-- The bucketed tier string: `floor(br/100)*100` for a truthy bitrate above
    300, the baseline `250` otherwise. -/
def bucketStr (br : Option Int) : String :=
  match br with
  | some b => if b ≠ 0 ∧ b > 300 then toString (Int.fdiv b 100 * 100) else ("250")
  | none => ("250")

/-- The `format_copy` search: the last format with a truthy `tbr` whose
    bucket lies within one of the target's bucket. -/
def findCopy (fmts : List Format) (br : Int) : Option Format :=
  fmts.foldl
    (fun acc f =>
      match f.tbr with
      | some t =>
        if t ≠ 0 ∧ (Int.fdiv br 100 - 1 ≤ Int.fdiv t 100 ∧ Int.fdiv t 100 ≤ Int.fdiv br 100 + 1) then
          some f
        else acc
      | none => acc)
    none

/-- The partial format dict built by `get_format_info`. -/
structure FormatInfo where
  width : Option Int
  height : Option Int
  tbr : Option Int
  vcodec : Option String
  acodec : Option String
  fps : Option Int
  format_id : String
deriving DecidableEq

/-- `get_format_info`: crashes with a `TypeError` when the effective bitrate
    is Python `None` while some format carries a truthy `tbr` (the
    `math.floor(br / 100)` on `None`), copies a matching format's metadata
    when one is found, and otherwise consults the quality table, a missing
    key being a `KeyError`. -/
def get_format_info (fmts : List Format) (q : String) : Except PyErr FormatInfo :=
  if effBr fmts q = none ∧ fmts.any (fun f => qTruthy f.tbr) then .error .typeError
  else
    match findCopy fmts ((effBr fmts q).getD 0) with
    | some f =>
      .ok ⟨f.width, f.height, f.tbr, f.vcodec, f.acodec, f.fps,
           ("https-") ++ bucketStr (effBr fmts q)⟩
    | none =>
      match qualityLookup (bucketStr (effBr fmts q)) with
      | some (w, h) =>
        .ok ⟨some w, some h, some ((strToInt? (bucketStr (effBr fmts q))).getD 0), none, none,
             none, ("https-") ++ bucketStr (effBr fmts q)⟩
      | none => .error (.keyError (bucketStr (effBr fmts q)))

/-- The synthesis loop over the quality tokens, in token order; the first
    failing token aborts the whole call (the Python exception propagates). -/
def buildHttpFormats (relinker_url : String) (fmts : List Format) :
    List String → Except PyErr (List Format)
  | [] => .ok []
  | q :: rest =>
    match get_format_info fmts q with
    | .error e => .error e
    | .ok info =>
      match buildHttpFormats relinker_url fmts rest with
      | .error e => .error e
      | .ok others =>
        .ok ({ url := mp4Tmpl relinker_url q,
               format_id := some info.format_id,
               vcodec := info.vcodec,
               acodec := info.acodec,
               tbr := info.tbr,
               width := info.width,
               height := info.height,
               fps := info.fps,
               protocol := some ("https"),
               ext := some ("mp4") } :: others)

/-- Audio-only formats are excluded from the matching pool. -/
def filteredFmts (fmts0 : List Format) : List Format :=
  fmts0.filter (fun f => f.vcodec ≠ some ("none"))

/-- The redirect target of the bare-URL probe, or the empty string
    (`test_url(relinker_url) or ''`). -/
def secondUrl (head : String → Option (Nat × String)) (relinker_url : String) : String :=
  match test_url head relinker_url with
  | .redirect s => s
  | _ => ("")

/-- The quality-token list derived from the regex match: the captured
    comma-separated list, or the single wildcard token, empty entries
    dropped. -/
def availOf (qopt : Option String) : List String :=
  (match qopt with
   | some qs => splitOnChar qs (',')
   | none => [("*")]).filter (fun i => i ≠ (""))

/-- `_create_http_urls`: empty on any probe ambiguity (no redirect on the
    wildcard probe, or no structural match on the bare probe's redirect),
    otherwise one synthesized descriptor per quality token. -/
def _create_http_urls (head : String → Option (Nat × String)) (relinker_url : String)
    (fmts0 : List Format) : Except PyErr (List Format) :=
  match test_url head (mp4Tmpl relinker_url ("*")) with
  | .redirect _ =>
    (match relinkerMatchQuality (secondUrl head relinker_url) with
     | none => .ok []
     | some qopt => buildHttpFormats relinker_url (filteredFmts fmts0) (availOf qopt))
  | _ => .ok []

/-! ## `_extract_relinker_info` (lines 37-119) -/

/-- The configured restricted-country set `_GEO_COUNTRIES`. -/
def GEO_COUNTRIES : List String := [("IT")]

/-- Initial loop state. -/
def initState : LoopState := ⟨[], none, none, none, false⟩

/-- The fixed probing order. -/
def allPlatforms : List Platform := [.mon, .flash, .native]

/-- The `re.match(r'https?://', ...)` guard. -/
def isHttpUrl (u : String) : Bool :=
  strStartsWith u ("http://") || strStartsWith u ("https://")

/-- `_extract_relinker_info` over abstract capabilities: `resp` gives each
    profile's parsed XML, `m3u8F` and `f4mF` the manifest expansions, `head`
    the HEAD-probe responses used by `_create_http_urls`. -/
def _extract_relinker_info (resp : Platform → RelinkerXml)
    (m3u8F f4mF : String → List Format) (head : String → Option (Nat × String))
    (relinker_url : String) (audio_only : Bool) : Except PyErr Outcome :=
  if ¬ isHttpUrl relinker_url then
    .ok ⟨none, none, [baseFormat relinker_url]⟩
  else
    match runLoop resp m3u8F f4mF allPlatforms initState with
    | .error e => .error e
    | .ok st =>
      if st.formats = [] ∧ st.geoprotection = some true then
        .error (.geoRestricted GEO_COUNTRIES true)
      else if audio_only then .ok ⟨st.is_live, st.duration, st.formats⟩
      else
        match _create_http_urls head relinker_url st.formats with
        | .error e => .error e
        | .ok extra => .ok ⟨st.is_live, st.duration, st.formats ++ extra⟩

/-! ## `_extract_subtitles` (lines 210-233) -/

/-- One entry of a `subtitlesArray` list; non-string URL values are
    represented by `none` (the `isinstance` guard rejects them). -/
structure SubEntry where
  url : Option String
  language : Option String
deriving DecidableEq

/-- One subtitle variant (extension and resolved URL). -/
structure SubVariant where
  ext : String
  url : Option String
deriving DecidableEq

/-- The slice of a media record that `_extract_subtitles` reads. -/
structure VideoData where
  subtitlesArray : Option (List SubEntry)
  subtitles : Option String
  subtitlesUrl : Option String
deriving DecidableEq

/-- `subtitles.setdefault(lang, []).append(v)` on an insertion-ordered map. -/
def addSub (m : List (String × List SubVariant)) (lang : String) (v : SubVariant) :
    List (String × List SubVariant) :=
  if m.any (fun e => e.1 = lang) then
    m.map (fun e => if e.1 = lang then (e.1, e.2 ++ [v]) else e)
  else m ++ [(lang, [v])]

/-- Processing of one subtitle entry: skip falsy or non-string URLs, default
    the language to Italian, resolve against the page URL, and materialise
    the extra `srt` sibling of an `stl` variant. -/
def subStep (pageUrl : String) (m : List (String × List SubVariant)) (e : SubEntry) :
    List (String × List SubVariant) :=
  match e.url with
  | none => m
  | some su =>
    if su = ("") then m
    else
      let lang := match e.language with
        | some l => if l = ("") then ("it") else l
        | none => ("it")
      let joined := urljoin pageUrl (some su)
      let ext := determine_ext joined ("srt")
      let m1 := addSub m lang ⟨ext, joined⟩
      if ext = ("stl") then
        match joined with
        | some js => addSub m1 lang ⟨("srt"), some ((js.dropRight 3) ++ ("srt"))⟩
        | none => m1
      else m1

/-- The two legacy singular entries appended to the working list. -/
def legacyEntries (vd : VideoData) : List SubEntry :=
  [⟨vd.subtitles, none⟩, ⟨vd.subtitlesUrl, none⟩]

/-- `_extract_subtitles`.  The second component is the state of the caller's
    record after the call: `subtitles_array = video_data.get('subtitlesArray')
    or []` aliases the caller's list exactly when it is truthy (a non-empty
    list), so the two legacy appends are then visible to the caller. -/
def _extract_subtitles (pageUrl : String) (vd : VideoData) :
    List (String × List SubVariant) × VideoData :=
  let orig := vd.subtitlesArray.getD []
  let arr := orig ++ legacyEntries vd
  let vdAfter := if orig = [] then vd else { vd with subtitlesArray := some arr }
  (arr.foldl (subStep pageUrl) [], vdAfter)

/-! ## Safety characterisation for the synthesis tokens -/

/-- A quality token is safe for a given (already filtered) format pool when
    neither crash of `get_format_info` can fire: a `None` effective bitrate
    never meets a bitrate-carrying format, and when no format matches within
    one bucket the bucketed tier is a key of the quality table. -/
def tokenSafe (fmts : List Format) (q : String) : Prop :=
  (effBr fmts q = none → fmts.all (fun f => !qTruthy f.tbr) = true)
  ∧ (findCopy fmts ((effBr fmts q).getD 0) = none →
      (qualityLookup (bucketStr (effBr fmts q))).isSome = true)

instance (fmts : List Format) (q : String) : Decidable (tokenSafe fmts q) := by
  unfold tokenSafe
  infer_instance

/-! ## Concrete fixtures used by counterexamples and witnesses -/

/-- A probe response with every element absent. -/
def xEmpty : RelinkerXml := ⟨none, none, none, none, none, none⟩

/-- Manifest expansion returning no formats. -/
def noFmts : String → List Format := fun _ => []

/-- Manifest expansion returning one direct format (used to show expansion
    was available yet not invoked). -/
def oneFmt : String → List Format := fun _ => [baseFormat ("http://h/s.mp4")]

/-- HEAD capability on which every request fails. -/
def noHead : String → Option (Nat × String) := fun _ => none

/-- First profile declares liveness `N` and duration zero, second declares
    `Y` and sixty seconds, third declares nothing. -/
def cresp1 : Platform → RelinkerXml := fun p =>
  match p with
  | .mon => ⟨none, none, some ("N"), some ("0"), none, none⟩
  | .flash => ⟨none, none, some ("Y"), some ("60"), none, none⟩
  | .native => xEmpty

/-- Every profile declares geo-protection `Y` and nothing else. -/
def cresp3 : Platform → RelinkerXml := fun _ => ⟨none, some ("Y"), none, none, none, none⟩

/-- Every profile responds with an empty document. -/
def cresp5 : Platform → RelinkerXml := fun _ => xEmpty

/-- First profile serves an HLS manifest, second an `.mp3` URL. -/
def cresp6 : Platform → RelinkerXml := fun p =>
  match p with
  | .mon => ⟨none, none, none, none, some ("http://h/v.m3u8"), none⟩
  | .flash => ⟨none, none, none, none, some ("http://h/a.mp3"), none⟩
  | .native => xEmpty

/-- Only the first profile answers, with an `.mp3` URL. -/
def crespM : Platform → RelinkerXml := fun p =>
  match p with
  | .mon => ⟨none, none, none, none, some ("http://a/b.mp3"), none⟩
  | _ => xEmpty

/-- Only the `native` profile answers, with a direct-file URL and no bitrate
    element. -/
def cresp7 : Platform → RelinkerXml := fun p =>
  match p with
  | .native => ⟨none, none, none, none, some ("http://h/v.mp4"), none⟩
  | _ => xEmpty

/-- Only the `native` profile answers, with a direct-file URL and a zero
    bitrate. -/
def cresp7b : Platform → RelinkerXml := fun p =>
  match p with
  | .native => ⟨none, none, none, none, some ("http://h/v.mp4"), some ("0")⟩
  | _ => xEmpty

/-- Only the `native` profile answers, with a direct-file URL and bitrate
    800. -/
def cresp7c : Platform → RelinkerXml := fun p =>
  match p with
  | .native => ⟨none, none, none, none, some ("http://h/v.mp4"), some ("800")⟩
  | _ => xEmpty

/-- Only the `flash` profile answers, with an adaptive-HLS URL. -/
def cresp8 : Platform → RelinkerXml := fun p =>
  match p with
  | .flash => ⟨none, none, none, none, some ("http://h/v.m3u8"), none⟩
  | _ => xEmpty

/-- HEAD capability whose redirect carries quality tokens `600,700` outside
    the quality table. -/
def cHead2 : String → Option (Nat × String) := fun u =>
  if u = ("http://r/v&overrideUserAgentRule=mp4-*") then some (200, ("other"))
  else if u = ("http://r/v") then some (200, ("https://h/e/p/id_600,700.mp4?x"))
  else none

/-- HEAD capability whose redirect carries the table keys `250,400`. -/
def cHead3 : String → Option (Nat × String) := fun u =>
  if u = ("http://r/v&overrideUserAgentRule=mp4-*") then some (200, ("other"))
  else if u = ("http://r/v") then some (200, ("https://h/e/p/id_250,400.mp4?k=1"))
  else none

/-- A media record whose `subtitlesArray` already holds one entry. -/
def vd0 : VideoData := ⟨some [⟨some ("http://x/b.srt"), none⟩], none, none⟩

/-! ## Helper lemmas -/

theorem step_ok_fields {m3u8F f4mF : String → List Format} {p : Platform}
    {x : RelinkerXml} {st st' : LoopState} {b : Bool}
    (h : step m3u8F f4mF p x st = .ok (st', b)) :
    st'.geoprotection = latchFlag st.geoprotection x.geoprotection
    ∧ st'.is_live = latchFlag st.is_live x.is_live
    ∧ st'.duration = latchDur st.duration x.duration := by
  unfold step at h
  cases hc : classifyUrl m3u8F f4mF p x with
  | error e => rw [hc] at h; cases h
  | ok pr =>
    rw [hc] at h
    cases pr with
    | mk delta brk =>
      simp only [Except.ok.injEq, Prod.mk.injEq] at h
      obtain ⟨h1, h2⟩ := h
      subst h1
      simp [applyLatches]

theorem runLoop_latch_none_inv {resp : Platform → RelinkerXml}
    {m3u8F f4mF : String → List Format} :
    ∀ (l : List Platform) (st st' : LoopState),
      (∀ p ∈ l, (resp p).is_live = none ∧ (resp p).duration = none) →
      st.is_live = some false → st.duration = none →
      runLoop resp m3u8F f4mF l st = .ok st' →
      st'.is_live = some false ∧ st'.duration = none := by
  intro l
  induction l with
  | nil =>
    intro st st' _ hl hd h
    unfold runLoop at h
    simp only [Except.ok.injEq] at h
    subst h
    exact ⟨hl, hd⟩
  | cons p rest ih =>
    intro st st' hresp hl hd h
    unfold runLoop at h
    cases hstep : step m3u8F f4mF p (resp p) st with
    | error e => rw [hstep] at h; cases h
    | ok pr =>
      rw [hstep] at h
      cases pr with
      | mk st1 brk =>
        obtain ⟨hrl, hrd⟩ := hresp p (List.mem_cons_self p rest)
        obtain ⟨_, hlv, hdu⟩ := step_ok_fields hstep
        have hl1 : st1.is_live = some false := by
          rw [hlv, hl, hrl]
          simp [latchFlag]
        have hd1 : st1.duration = none := by
          rw [hdu, hd, hrd]
          simp [latchDur, falsyDur, parse_duration]
        cases brk with
        | true =>
          simp only [if_true] at h
          simp only [Except.ok.injEq] at h
          subst h
          exact ⟨hl1, hd1⟩
        | false =>
          simp only [if_false] at h
          exact ih st1 st' (fun q hq => hresp q (List.mem_cons_of_mem p hq)) hl1 hd1 h

theorem get_format_info_error_shape {fmts : List Format} {q : String} {e : PyErr}
    (h : get_format_info fmts q = .error e) :
    e = .typeError ∨ ∃ k, e = .keyError k := by
  unfold get_format_info at h
  split at h
  · left
    simp only [Except.error.injEq] at h
    exact h.symm
  · split at h
    · cases h
    · split at h
      · cases h
      · right
        simp only [Except.error.injEq] at h
        exact ⟨_, h.symm⟩

theorem buildHttpFormats_error_shape {url : String} {fmts : List Format} :
    ∀ {l : List String} {e : PyErr},
      buildHttpFormats url fmts l = .error e →
      e = .typeError ∨ ∃ k, e = .keyError k := by
  intro l
  induction l with
  | nil => intro e h; cases h
  | cons q rest ih =>
    intro e h
    unfold buildHttpFormats at h
    cases hg : get_format_info fmts q with
    | error e' =>
      rw [hg] at h
      simp only [Except.error.injEq] at h
      subst h
      exact get_format_info_error_shape hg
    | ok info =>
      rw [hg] at h
      cases hr : buildHttpFormats url fmts rest with
      | error e' =>
        rw [hr] at h
        simp only [Except.error.injEq] at h
        subst h
        exact ih hr
      | ok others => rw [hr] at h; cases h

theorem create_http_urls_error_shape {head : String → Option (Nat × String)}
    {url : String} {fmts0 : List Format} {e : PyErr}
    (h : _create_http_urls head url fmts0 = .error e) :
    e = .typeError ∨ ∃ k, e = .keyError k := by
  unfold _create_http_urls at h
  split at h
  · split at h
    · cases h
    · exact buildHttpFormats_error_shape h
  · cases h

theorem get_format_info_safe {fmts : List Format} {q : String}
    (h : tokenSafe fmts q) : ∃ i, get_format_info fmts q = .ok i := by
  obtain ⟨hA, hB⟩ := h
  unfold get_format_info
  by_cases hbr : effBr fmts q = none
  · have hall := hA hbr
    have hany : fmts.any (fun f => qTruthy f.tbr) = false := by
      simp only [List.all_eq_true] at hall
      simp only [List.any_eq_false]
      intro f hf
      have := hall f hf
      simpa using this
    rw [if_neg (by simp [hany])]
    cases hfc : findCopy fmts ((effBr fmts q).getD 0) with
    | some f => exact ⟨_, rfl⟩
    | none =>
      have := hB hfc
      cases hq : qualityLookup (bucketStr (effBr fmts q)) with
      | none => rw [hq] at this; cases this
      | some wh => cases wh with | mk w hgt => exact ⟨_, rfl⟩
  · rw [if_neg (by simp [hbr])]
    cases hfc : findCopy fmts ((effBr fmts q).getD 0) with
    | some f => exact ⟨_, rfl⟩
    | none =>
      have := hB hfc
      cases hq : qualityLookup (bucketStr (effBr fmts q)) with
      | none => rw [hq] at this; cases this
      | some wh => cases wh with | mk w hgt => exact ⟨_, rfl⟩

theorem buildHttpFormats_safe {url : String} {fmts : List Format} :
    ∀ {l : List String}, (∀ q ∈ l, tokenSafe fmts q) →
      (buildHttpFormats url fmts l).isOk = true := by
  intro l
  induction l with
  | nil => intro _; rfl
  | cons q rest ih =>
    intro hsafe
    obtain ⟨i, hi⟩ := get_format_info_safe (hsafe q (List.mem_cons_self q rest))
    have hrest := ih (fun q' hq' => hsafe q' (List.mem_cons_of_mem q hq'))
    cases hr : buildHttpFormats url fmts rest with
    | error e => rw [hr] at hrest; cases hrest
    | ok r =>
      unfold buildHttpFormats
      rw [hi, hr]
      rfl

/-! ## Claim theorems -/

/-- C1, counterexample.  The claim that the aggregate fields equal the first
    present value and that an earlier `N` or zero is never overwritten is
    false: with `mon` declaring liveness `N` and duration `0` and `flash`
    declaring liveness `Y` and duration `60`, the outcome carries liveness
    true and duration sixty, overwriting the first present values. -/
theorem relinker_first_wins_counterexample :
    _extract_relinker_info cresp1 noFmts noFmts noHead ("http://r") true
      = .ok ⟨some true, some (60 : Int), []⟩ := by decide

/-- C1 (amended): over a complete three-profile run without an `.mp3` break,
    the latched geo-protection and liveness flags are true exactly when some
    probed profile declared `Y` (first-truthy-wins: an earlier `N` can be
    overwritten), and the latched duration is the first truthy (nonzero,
    parseable) duration in profile order, falling back to the last profile's
    parse when none is truthy. -/
theorem relinker_latch_first_truthy
    (resp : Platform → RelinkerXml) (m3u8F f4mF : String → List Format)
    (s1 s2 s3 : LoopState)
    (h1 : step m3u8F f4mF .mon (resp .mon) initState = .ok (s1, false))
    (h2 : step m3u8F f4mF .flash (resp .flash) s1 = .ok (s2, false))
    (h3 : step m3u8F f4mF .native (resp .native) s2 = .ok (s3, false)) :
    runLoop resp m3u8F f4mF allPlatforms initState = .ok s3
    ∧ (s3.geoprotection = some true ↔
        ((resp .mon).geoprotection = some ("Y") ∨ (resp .flash).geoprotection = some ("Y")
          ∨ (resp .native).geoprotection = some ("Y")))
    ∧ (s3.is_live = some true ↔
        ((resp .mon).is_live = some ("Y") ∨ (resp .flash).is_live = some ("Y")
          ∨ (resp .native).is_live = some ("Y")))
    ∧ (falsyDur (parse_duration (resp .mon).duration) = false →
        s3.duration = parse_duration (resp .mon).duration)
    ∧ (falsyDur (parse_duration (resp .mon).duration) = true →
       falsyDur (parse_duration (resp .flash).duration) = false →
        s3.duration = parse_duration (resp .flash).duration)
    ∧ (falsyDur (parse_duration (resp .mon).duration) = true →
       falsyDur (parse_duration (resp .flash).duration) = true →
        s3.duration = parse_duration (resp .native).duration) := by
  obtain ⟨g1, l1, d1⟩ := step_ok_fields h1
  obtain ⟨g2, l2, d2⟩ := step_ok_fields h2
  obtain ⟨g3, l3, d3⟩ := step_ok_fields h3
  have hinner : latchDur ((initState : LoopState).duration) (resp .mon).duration
      = parse_duration (resp .mon).duration := rfl
  refine ⟨?_, ?_, ?_, ?_, ?_, ?_⟩
  · simp [allPlatforms, runLoop, h1, h2, h3]
  · rw [g3, g2, g1]
    by_cases c1 : (resp .mon).geoprotection = some ("Y") <;>
      by_cases c2 : (resp .flash).geoprotection = some ("Y") <;>
        by_cases c3 : (resp .native).geoprotection = some ("Y") <;>
          simp [latchFlag, initState, c1, c2, c3]
  · rw [l3, l2, l1]
    by_cases c1 : (resp .mon).is_live = some ("Y") <;>
      by_cases c2 : (resp .flash).is_live = some ("Y") <;>
        by_cases c3 : (resp .native).is_live = some ("Y") <;>
          simp [latchFlag, initState, c1, c2, c3]
  · intro hf1
    rw [d3, d2, d1, hinner]
    simp [latchDur, hf1]
  · intro hf1 hf2
    rw [d3, d2, d1, hinner]
    simp [latchDur, hf1, hf2]
  · intro hf1 hf2
    rw [d3, d2, d1, hinner]
    simp [latchDur, hf1, hf2]

/-- C1, witness for the amended theorem at a concrete run. -/
theorem relinker_latch_first_truthy_witness :
    runLoop cresp5 noFmts noFmts allPlatforms initState
      = .ok ⟨[], some false, some false, none, false⟩ :=
  (relinker_latch_first_truthy cresp5 noFmts noFmts
    ⟨[], some false, some false, none, false⟩ ⟨[], some false, some false, none, false⟩
    ⟨[], some false, some false, none, false⟩ (by decide) (by decide) (by decide)).1

/-- C2, counterexample.  The synthesizer is not total on tokens outside the
    quality table: with no existing formats and a redirect carrying the
    quality list `600,700`, processing token `600` raises a Python
    `KeyError` (the claim asserted every token still yields a descriptor). -/
theorem create_http_urls_keyerror_counterexample :
    _create_http_urls cHead2 ("http://r/v") [] = .error (.keyError ("600")) := by decide

/-- C2 (amended): `_create_http_urls` returns the empty sequence on any probe
    ambiguity (no redirect on the wildcard probe, or a bare-probe redirect
    that the structural pattern does not match), and it terminates normally
    whenever every derived quality token is safe: its bucketed tier is a key
    of the quality table or an existing format matches within one bucket, and
    a `None` effective bitrate never meets a bitrate-carrying format.
    Tokens outside the table can instead raise a lookup error. -/
theorem create_http_urls_contract (head : String → Option (Nat × String))
    (url : String) (fmts0 : List Format) :
    ((∀ s, test_url head (mp4Tmpl url ("*")) ≠ .redirect s) →
        _create_http_urls head url fmts0 = .ok [])
    ∧ (relinkerMatchQuality (secondUrl head url) = none →
        _create_http_urls head url fmts0 = .ok [])
    ∧ (∀ qopt, relinkerMatchQuality (secondUrl head url) = some qopt →
        (∀ q ∈ availOf qopt, tokenSafe (filteredFmts fmts0) q) →
        (_create_http_urls head url fmts0).isOk = true) := by
  refine ⟨?_, ?_, ?_⟩
  · intro hnr
    unfold _create_http_urls
    cases ht : test_url head (mp4Tmpl url ("*")) with
    | redirect s => exact absurd ht (hnr s)
    | fls => rfl
    | non => rfl
  · intro hm
    unfold _create_http_urls
    cases ht : test_url head (mp4Tmpl url ("*")) with
    | redirect s => rw [hm]
    | fls => rfl
    | non => rfl
  · intro qopt hm hsafe
    unfold _create_http_urls
    cases ht : test_url head (mp4Tmpl url ("*")) with
    | redirect s => rw [hm]; exact buildHttpFormats_safe hsafe
    | fls => rfl
    | non => rfl

/-- C2, witness for the amended theorem: table-key tokens `250,400` succeed. -/
theorem create_http_urls_contract_witness :
    (_create_http_urls cHead3 ("http://r/v") []).isOk = true :=
  (create_http_urls_contract cHead3 ("http://r/v") []).2.2 (some ("250,400"))
    (by decide) (by decide)

/-- C3 (confirmed): after a completed profile loop, the resolution fails with
    the geo-restriction error (carrying the configured country set `IT` and
    the metadata-available flag) precisely when no formats were produced and
    the latched geo flag is true; with at least one format or a non-true geo
    flag no geo-restriction error can be produced. -/
theorem relinker_geo_restricted_law
    (resp : Platform → RelinkerXml) (m3u8F f4mF : String → List Format)
    (head : String → Option (Nat × String)) (url : String) (audio_only : Bool)
    (st : LoopState)
    (hu : isHttpUrl url = true)
    (hrun : runLoop resp m3u8F f4mF allPlatforms initState = .ok st) :
    (st.formats = [] ∧ st.geoprotection = some true →
        _extract_relinker_info resp m3u8F f4mF head url audio_only
          = .error (.geoRestricted GEO_COUNTRIES true) ∧ GEO_COUNTRIES = [("IT")])
    ∧ ((st.formats ≠ [] ∨ st.geoprotection ≠ some true) →
        ∀ c m, _extract_relinker_info resp m3u8F f4mF head url audio_only
          ≠ .error (.geoRestricted c m)) := by
  constructor
  · rintro ⟨hf, hg⟩
    refine ⟨?_, rfl⟩
    unfold _extract_relinker_info
    rw [if_neg (by simp [hu]), hrun]
    dsimp only
    rw [if_pos ⟨hf, hg⟩]
  · rintro hne c m heq
    unfold _extract_relinker_info at heq
    rw [if_neg (by simp [hu]), hrun] at heq
    dsimp only at heq
    have hcond : ¬ (st.formats = [] ∧ st.geoprotection = some true) := by
      rintro ⟨hf, hg⟩
      rcases hne with h | h
      · exact h hf
      · exact h hg
    rw [if_neg hcond] at heq
    cases audio_only with
    | true => simp at heq
    | false =>
      simp only [Bool.false_eq_true, if_false] at heq
      cases hc : _create_http_urls head url st.formats with
      | error e =>
        rw [hc] at heq
        simp only [Except.error.injEq] at heq
        rcases create_http_urls_error_shape (heq ▸ hc) with h | ⟨k, h⟩ <;> cases h
      | ok extra => rw [hc] at heq; cases heq

/-- C3, witness at a concrete geo-restricted run. -/
theorem relinker_geo_restricted_law_witness :
    _extract_relinker_info cresp3 noFmts noFmts noHead ("http://r") false
        = .error (.geoRestricted GEO_COUNTRIES true) ∧ GEO_COUNTRIES = [("IT")] :=
  (relinker_geo_restricted_law cresp3 noFmts noFmts noHead ("http://r") false
    ⟨[], some true, some false, none, false⟩ (by decide) (by decide)).1 ⟨rfl, rfl⟩

/-- C4, counterexample.  On a non-network input the resolver does not fail:
    it returns a degenerate outcome whose single format carries the literal
    input (the claim asserted an `UnsupportedInput` failure). -/
theorem relinker_non_http_counterexample :
    _extract_relinker_info cresp3 noFmts noFmts noHead ("mms://a") false
      = .ok ⟨none, none, [baseFormat ("mms://a")]⟩ := by decide

/-- C4 (amended): for every input that does not match the `https?://`
    pattern, the resolver issues no probe and returns normally with exactly
    one format whose URL is the literal input, and no liveness or duration
    field; the degenerate case is handled inside the resolver rather than
    surfaced as an error. -/
theorem relinker_non_http_degenerate
    (resp : Platform → RelinkerXml) (m3u8F f4mF : String → List Format)
    (head : String → Option (Nat × String)) (url : String) (audio_only : Bool)
    (h : isHttpUrl url = false) :
    _extract_relinker_info resp m3u8F f4mF head url audio_only
      = .ok ⟨none, none, [baseFormat url]⟩ := by
  unfold _extract_relinker_info
  rw [if_pos (by simp [h])]

/-- C4, witness for the amended theorem. -/
theorem relinker_non_http_degenerate_witness :
    _extract_relinker_info cresp5 noFmts noFmts noHead ("rtsp://y") false
      = .ok ⟨none, none, [baseFormat ("rtsp://y")]⟩ :=
  relinker_non_http_degenerate cresp5 noFmts noFmts noHead ("rtsp://y") false (by decide)

/-- C5, counterexample.  When no profile determines liveness the `is_live`
    key is not omitted: it is present with value false (the latch turns the
    initial `None` into `False` on the first probe, and `filter_dict` only
    drops `None`). -/
theorem relinker_is_live_present_counterexample :
    _extract_relinker_info cresp5 noFmts noFmts noHead ("http://r") true
      = .ok ⟨some false, none, []⟩ := by decide

/-- C5 (amended): in a probing run in which no profile carries a liveness or
    duration element, the returned outcome omits the duration key but always
    carries the liveness key with value false; unknown is conflated with
    false for liveness, though not for duration. -/
theorem relinker_unknown_fields_omission
    (resp : Platform → RelinkerXml) (m3u8F f4mF : String → List Format)
    (head : String → Option (Nat × String)) (url : String) (audio_only : Bool)
    (out : Outcome)
    (hu : isHttpUrl url = true)
    (hlive : ∀ p, (resp p).is_live = none)
    (hdur : ∀ p, (resp p).duration = none)
    (h : _extract_relinker_info resp m3u8F f4mF head url audio_only = .ok out) :
    out.is_live = some false ∧ out.duration = none := by
  unfold _extract_relinker_info at h
  rw [if_neg (by simp [hu])] at h
  cases hrun : runLoop resp m3u8F f4mF allPlatforms initState with
  | error e => rw [hrun] at h; cases h
  | ok st =>
    rw [hrun] at h
    dsimp only at h
    have hst : st.is_live = some false ∧ st.duration = none := by
      simp only [allPlatforms] at hrun
      unfold runLoop at hrun
      cases hstep : step m3u8F f4mF .mon (resp .mon) initState with
      | error e => rw [hstep] at hrun; cases hrun
      | ok pr =>
        rw [hstep] at hrun
        cases pr with
        | mk st1 brk =>
          obtain ⟨_, hlv, hdu⟩ := step_ok_fields hstep
          have hl1 : st1.is_live = some false := by rw [hlv, hlive .mon]; rfl
          have hd1 : st1.duration = none := by rw [hdu, hdur .mon]; rfl
          cases brk with
          | true =>
            simp only [if_true] at hrun
            simp only [Except.ok.injEq] at hrun
            subst hrun
            exact ⟨hl1, hd1⟩
          | false =>
            simp only [Bool.false_eq_true, if_false] at hrun
            exact runLoop_latch_none_inv _ st1 st
              (fun q _ => ⟨hlive q, hdur q⟩) hl1 hd1 hrun
    obtain ⟨hsl, hsd⟩ := hst
    by_cases hcond : st.formats = [] ∧ st.geoprotection = some true
    · rw [if_pos hcond] at h; cases h
    · rw [if_neg hcond] at h
      cases audio_only with
      | true =>
        simp only [if_true] at h
        simp only [Except.ok.injEq] at h
        subst h
        exact ⟨hsl, hsd⟩
      | false =>
        simp only [Bool.false_eq_true, if_false] at h
        cases hc : _create_http_urls head url st.formats with
        | error e => rw [hc] at h; cases h
        | ok extra =>
          rw [hc] at h
          simp only [Except.ok.injEq] at h
          subst h
          exact ⟨hsl, hsd⟩

/-- C5, witness for the amended theorem at a concrete run. -/
theorem relinker_unknown_fields_omission_witness :
    (Outcome.mk (some false) none []).is_live = some false
      ∧ (Outcome.mk (some false) none []).duration = none :=
  relinker_unknown_fields_omission cresp5 noFmts noFmts noHead ("http://r") true
    ⟨some false, none, []⟩ (by decide) (fun _ => rfl) (fun _ => rfl) (by decide)

/-- C6, counterexample.  An `.mp3` probe does append a single audio format
    and stop probing, but the outcome need not contain exactly one format:
    here the earlier `mon` profile already contributed an HLS rendition, so
    the outcome holds two formats. -/
theorem relinker_mp3_not_single_counterexample :
    _extract_relinker_info cresp6 oneFmt noFmts noHead ("http://r") true
      = .ok ⟨some false, none,
             [baseFormat ("http://h/s.mp4"), mp3Format ("http://h/a.mp3")]⟩ := by decide

/-- C6 (amended): a profile whose media URL has extension `mp3` appends
    exactly one audio-only format and stops the loop (later profiles are
    never probed: the run does not depend on them); the outcome contains
    exactly that one format provided no earlier profile contributed formats
    and no HTTPS variants are appended (here: audio-only requested). -/
theorem relinker_mp3_stops_probing
    (resp : Platform → RelinkerXml) (m3u8F f4mF : String → List Format)
    (head : String → Option (Nat × String)) (p : Platform) (rest : List Platform)
    (st : LoopState) (media url : String)
    (hurl : (resp p).url_content = some media)
    (hsent : strContains media sentinel = false)
    (hext : determine_ext (some media) ("unknown_video") = ("mp3")) :
    runLoop resp m3u8F f4mF (p :: rest) st
        = .ok { applyLatches (resp p) st with formats := st.formats ++ [mp3Format media] }
    ∧ (p = .mon → isHttpUrl url = true →
        _extract_relinker_info resp m3u8F f4mF head url true
          = .ok ⟨some (decide ((resp .mon).is_live = some ("Y"))),
                 parse_duration (resp .mon).duration,
                 [mp3Format media]⟩) := by
  have hcls : classifyUrl m3u8F f4mF p (resp p) = .ok ([mp3Format media], true) := by
    unfold classifyUrl
    rw [hurl]
    simp [hsent, hext]
  have hrunAux : ∀ (st' : LoopState) (rest' : List Platform),
      runLoop resp m3u8F f4mF (p :: rest') st'
        = .ok { applyLatches (resp p) st' with formats := st'.formats ++ [mp3Format media] } := by
    intro st' rest'
    have hstep : step m3u8F f4mF p (resp p) st'
        = .ok ({ applyLatches (resp p) st' with
                  formats := st'.formats ++ [mp3Format media] }, true) := by
      unfold step
      rw [hcls]
      rfl
    unfold runLoop
    rw [hstep]
    rfl
  refine ⟨hrunAux st rest, ?_⟩
  intro hp hu
  subst hp
  unfold _extract_relinker_info
  rw [if_neg (by simp [hu])]
  rw [show allPlatforms = Platform.mon :: [Platform.flash, Platform.native] from rfl]
  rw [hrunAux initState [Platform.flash, Platform.native]]
  rfl

/-- C6, witness for the amended theorem at a concrete run. -/
theorem relinker_mp3_stops_probing_witness :
    _extract_relinker_info crespM noFmts noFmts noHead ("http://r") true
      = .ok ⟨some false, none, [mp3Format ("http://a/b.mp3")]⟩ :=
  (relinker_mp3_stops_probing crespM noFmts noFmts noHead .mon [.flash, .native]
    initState ("http://a/b.mp3") ("http://r") rfl (by decide) (by decide)).2 rfl (by decide)

/-- C7 (code bug): in the direct-file branch a missing bitrate element
    crashes the whole resolution (`None > 0` raises `TypeError` in Python 3)
    instead of being treated as an unknown bitrate; a present zero bitrate is
    correctly mapped to an absent `tbr`, and a positive one is kept. -/
theorem relinker_missing_bitrate_crash :
    _extract_relinker_info cresp7 noFmts noFmts noHead ("http://r") true = .error .typeError
    ∧ _extract_relinker_info cresp7b noFmts noFmts noHead ("http://r") true
        = .ok ⟨some false, none, [directFormat ("http://h/v.mp4") 0]⟩
    ∧ (directFormat ("http://h/v.mp4") 0).tbr = none
    ∧ _extract_relinker_info cresp7c noFmts noFmts noHead ("http://r") true
        = .ok ⟨some false, none, [directFormat ("http://h/v.mp4") 800]⟩
    ∧ (directFormat ("http://h/v.mp4") 800).tbr = some (800 : Int) := by decide

/-- C8, counterexample.  A media URL with extension `m3u8` produced by a
    profile other than `mon` is skipped outright, not expanded: here the
    `flash` profile returns an HLS URL, the expansion capability would yield
    a format, and yet the outcome holds no formats. -/
theorem relinker_hls_skip_counterexample :
    _extract_relinker_info cresp8 oneFmt oneFmt noHead ("http://r") true
      = .ok ⟨some false, none, []⟩ := by decide

/-- C8 (amended): an `m3u8`-extension URL is expanded into HLS renditions
    only when produced by the `mon` profile (any other profile skips the
    probe entirely), while a `format=m3u8` query marker on a URL of another
    (non-adaptive) extension is expanded regardless of the profile. -/
theorem relinker_hls_expansion_law
    (m3u8F f4mF : String → List Format) (p : Platform) (x : RelinkerXml) (media : String)
    (hurl : x.url_content = some media)
    (hsent : strContains media sentinel = false) :
    (determine_ext (some media) ("unknown_video") = ("m3u8") → p = .mon →
        classifyUrl m3u8F f4mF p x = .ok (m3u8F media, false))
    ∧ (determine_ext (some media) ("unknown_video") = ("m3u8") → p ≠ .mon →
        classifyUrl m3u8F f4mF p x = .ok ([], false))
    ∧ (determine_ext (some media) ("unknown_video") ≠ ("m3u8") →
       determine_ext (some media) ("unknown_video") ≠ ("f4m") →
       determine_ext (some media) ("unknown_video") ≠ ("mp3") →
       strContains media ("format=m3u8") = true →
        classifyUrl m3u8F f4mF p x = .ok (m3u8F media, false)) := by
  refine ⟨?_, ?_, ?_⟩
  · intro hext hp
    subst hp
    unfold classifyUrl
    rw [hurl]
    simp [hsent, hext]
  · intro hext hp
    unfold classifyUrl
    rw [hurl]
    simp [hsent, hext, hp]
  · intro h1 h2 h3 hmark
    unfold classifyUrl
    rw [hurl]
    simp [hsent, h1, h2, h3, hmark]

/-- C8, witness for the amended theorem. -/
theorem relinker_hls_expansion_law_witness :
    classifyUrl oneFmt noFmts .mon ⟨none, none, none, none, some ("http://h/v.m3u8"), none⟩
      = .ok (oneFmt ("http://h/v.m3u8"), false) :=
  (relinker_hls_expansion_law oneFmt noFmts .mon
    ⟨none, none, none, none, some ("http://h/v.m3u8"), none⟩ ("http://h/v.m3u8")
    rfl (by decide)).1 (by decide) rfl

/-- C9 (confirmed): a media record with an `stl` subtitle URL and no
    language yields the mapping with single key `it` holding the `stl`
    variant followed by the re-extensioned `srt` sibling, and a record with
    no subtitle fields yields the empty mapping without failing. -/
theorem extract_subtitles_stl_and_empty :
    (_extract_subtitles ("http://pg/page.html") ⟨none, some ("http://x/a.stl"), none⟩).1
        = [(("it"), [⟨("stl"), some ("http://x/a.stl")⟩, ⟨("srt"), some ("http://x/a.srt")⟩])]
    ∧ ∀ u : String, (_extract_subtitles u ⟨none, none, none⟩).1 = [] :=
  ⟨by decide, fun _ => rfl⟩

/-- C10 (confirmed): with a truthy `subtitlesArray` the call aliases and
    mutates the caller's list, appending the two legacy entries, so the
    record observed after the call differs from the input record. -/
theorem extract_subtitles_mutates_array (u : String) (vd : VideoData) (l : List SubEntry)
    (h1 : vd.subtitlesArray = some l) (h2 : l ≠ []) :
    (_extract_subtitles u vd).2
        = { vd with subtitlesArray := some (l ++ [⟨vd.subtitles, none⟩, ⟨vd.subtitlesUrl, none⟩]) }
    ∧ (_extract_subtitles u vd).2 ≠ vd := by
  have hpost : (_extract_subtitles u vd).2
      = { vd with subtitlesArray := some (l ++ [⟨vd.subtitles, none⟩, ⟨vd.subtitlesUrl, none⟩]) } := by
    unfold _extract_subtitles legacyEntries
    simp [h1, h2]
  refine ⟨hpost, ?_⟩
  rw [hpost]
  intro he
  have harr := congrArg VideoData.subtitlesArray he
  simp only [h1] at harr
  have hlist := Option.some.inj harr
  have hlen := congrArg List.length hlist
  simp at hlen

/-- C10, witness at a concrete record. -/
theorem extract_subtitles_mutates_array_witness :
    (_extract_subtitles ("http://pg") vd0).2
        = { vd0 with subtitlesArray := some ([⟨some ("http://x/b.srt"), none⟩] ++ [⟨vd0.subtitles, none⟩, ⟨vd0.subtitlesUrl, none⟩]) }
    ∧ (_extract_subtitles ("http://pg") vd0).2 ≠ vd0 :=
  extract_subtitles_mutates_array ("http://pg") vd0 [⟨some ("http://x/b.srt"), none⟩]
    rfl (by decide)

end Rai
